import Mathlib

/-!
Shallow embedding of the TSKMNGR overflow-archiving subsystem.

The database is modelled as explicit lists of rows (`boards`, `tasks`,
`archived_tasks`); SQL statements become list operations.  Dates are encoded
as natural numbers (e.g. 2024-01-01 as 20240101); a SQL NULL completion date
is `Option.none`.  Serial primary keys are modelled by `next_task_id` /
`next_archived_id` counters carried in the database state.

Embedded source:
* `ArchiveManager.archive_overflow_tasks`, `_archive_overflow_with_cursor`,
  `archive_to_fit`, `_archive_oldest_completed` from `archiving.py`;
* `restore_archived_task`, `move_task_between_boards` from
  `mcp_server/tsk_mcp_server.py`.
-/

/-- A row of the `tasks` table. -/
structure TaskRow where
  id : Nat
  board_id : String
  task : String
  due_date : Option Nat
  notes : String
  is_completed : Bool
  completed_on : Option Nat
  position : Nat
  created_at : Nat
deriving DecidableEq, Repr

/-- A row of the `boards` table (the columns the archiving core reads). -/
structure BoardRow where
  id : String
  user_id : Nat
  header : String
deriving DecidableEq, Repr

/-- A row of the `archived_tasks` table. -/
structure ArchivedTask where
  id : Nat
  user_id : Nat
  original_task_id : Nat
  board_id : String
  board_name_at_archive : String
  task : String
  due_date : Option Nat
  notes : String
  completed_on : Option Nat
  archived_on : Nat
deriving DecidableEq, Repr

/-- The database state visible to the archiving core. -/
structure DB where
  boards : List BoardRow
  tasks : List TaskRow
  archived_tasks : List ArchivedTask
  next_task_id : Nat
  next_archived_id : Nat
deriving DecidableEq, Repr

/-- The `ArchiveManager` feature-flag configuration
(`ENABLE_ARCHIVE_ON_COMPLETE`, `MAX_TASKS_PER_BOARD`). -/
structure ArchiveConfig where
  enable_archive_on_complete : Bool
  max_tasks_per_board : Nat
deriving DecidableEq, Repr

/-- Embedding of `ArchiveManager.should_archive`. -/
def should_archive (cfg : ArchiveConfig) : Bool :=
  cfg.enable_archive_on_complete

/-- Embedding of `SELECT COUNT(*) FROM tasks WHERE board_id = %s`. -/
def countTotalTasks (db : DB) (boardId : String) : Nat :=
  (db.tasks.filter (fun t => t.board_id == boardId)).length

/-- Embedding of `SELECT COUNT(*) FROM tasks WHERE board_id = %s AND is_completed = FALSE`. -/
def countActiveTasks (db : DB) (boardId : String) : Nat :=
  (db.tasks.filter (fun t => t.board_id == boardId && !t.is_completed)).length

/-- The board's completed tasks:
`SELECT ... FROM tasks WHERE board_id = %s AND is_completed = TRUE`. -/
def completedTasks (db : DB) (boardId : String) : List TaskRow :=
  db.tasks.filter (fun t => t.board_id == boardId && t.is_completed)

/-- Number of completed tasks on the board. -/
def countCompletedTasks (db : DB) (boardId : String) : Nat :=
  (completedTasks db boardId).length

/-- Embedding of `SELECT header FROM boards WHERE id = %s AND user_id = %s` (first row). -/
def lookupBoardHeader (db : DB) (boardId : String) (userId : Nat) : Option String :=
  (db.boards.find? (fun b => b.id == boardId && b.user_id == userId)).map (fun b => b.header)

/-- The SQL sort key `ORDER BY completed_on NULLS FIRST, created_at ASC`
as a boolean total preorder on task rows: a null completion date sorts
before any non-null one, then ascending completion date, then ascending
creation time. -/
def archiveOrderLE (a b : TaskRow) : Bool :=
  match a.completed_on, b.completed_on with
  | none, none => decide (a.created_at ≤ b.created_at)
  | none, some _ => true
  | some _, none => false
  | some x, some y => decide (x < y) || (decide (x = y) && decide (a.created_at ≤ b.created_at))

/-- The key `archiveOrderLE` as a relation, for use with `List.insertionSort`. -/
def taskLE (a b : TaskRow) : Prop := archiveOrderLE a b = true

instance : DecidableRel taskLE :=
  fun a b => inferInstanceAs (Decidable (archiveOrderLE a b = true))

/-- Embedding of `SELECT id, task, due_date, notes, completed_on, created_at FROM tasks
WHERE board_id = %s AND is_completed = TRUE
ORDER BY completed_on NULLS FIRST, created_at ASC LIMIT %s`.
The ORDER BY is embedded as a stable (insertion) sort by the SQL key. -/
def selectOldestCompleted (db : DB) (boardId : String) (lim : Nat) : List TaskRow :=
  (List.insertionSort taskLE (completedTasks db boardId)).take lim

/-- The archive row built by the INSERT inside `_archive_oldest_completed`:
`INSERT INTO archived_tasks (user_id, original_task_id, board_id,
board_name_at_archive, task, due_date, notes, completed_on, archived_on)`. -/
def mkArchivedRow (db : DB) (userId : Nat) (boardId boardName : String)
    (t : TaskRow) (now : Nat) : ArchivedTask :=
  { id := db.next_archived_id
    user_id := userId
    original_task_id := t.id
    board_id := boardId
    board_name_at_archive := boardName
    task := t.task
    due_date := t.due_date
    notes := t.notes
    completed_on := t.completed_on
    archived_on := now }

/-- Append one row to `archived_tasks`. -/
def insertArchived (db : DB) (row : ArchivedTask) : DB :=
  { db with
      archived_tasks := db.archived_tasks ++ [row]
      next_archived_id := db.next_archived_id + 1 }

/-- Embedding of `DELETE FROM tasks WHERE id = %s`. -/
def deleteTask (db : DB) (taskId : Nat) : DB :=
  { db with tasks := db.tasks.filter (fun t => t.id != taskId) }

/-- The `for task in rows:` loop of `_archive_oldest_completed`:
insert the archive copy, delete the original, count. -/
def archiveLoop (userId : Nat) (boardId boardName : String) (now : Nat) :
    DB → List TaskRow → DB × Nat
  | db, [] => (db, 0)
  | db, t :: ts =>
    let db1 := insertArchived db (mkArchivedRow db userId boardId boardName t now)
    let db2 := deleteTask db1 t.id
    let r := archiveLoop userId boardId boardName now db2 ts
    (r.1, r.2 + 1)

/-- Embedding of `ArchiveManager._archive_oldest_completed(cursor, board_id, user_id,
board_name, limit)`. -/
def archive_oldest_completed (db : DB) (boardId : String) (userId : Nat)
    (boardName : String) (lim : Nat) (now : Nat) : DB × Nat :=
  let rows := selectOldestCompleted db boardId lim
  if rows.isEmpty then (db, 0)
  else archiveLoop userId boardId boardName now db rows

/-- Embedding of `ArchiveManager._archive_overflow_with_cursor(cursor, board_id, user_id)`. -/
def archive_overflow_with_cursor (cfg : ArchiveConfig) (db : DB)
    (boardId : String) (userId : Nat) (now : Nat) : DB × Nat :=
  let total_tasks := countTotalTasks db boardId
  if total_tasks ≤ cfg.max_tasks_per_board then (db, 0)
  else
    let overflow_count := total_tasks - cfg.max_tasks_per_board
    match lookupBoardHeader db boardId userId with
    | none => (db, 0)
    | some board_name =>
      archive_oldest_completed db boardId userId board_name overflow_count now

/-- Embedding of `ArchiveManager.archive_overflow_tasks(board_id, user_id, conn)`:
the feature-flag gate followed by the cursor helper (the caller-provided
connection path; the caller controls commit). -/
def archive_overflow_tasks (cfg : ArchiveConfig) (db : DB)
    (boardId : String) (userId : Nat) (now : Nat) : DB × Nat :=
  if !(should_archive cfg) then (db, 0)
  else archive_overflow_with_cursor cfg db boardId userId now

/-- Embedding of `ArchiveManager.archive_to_fit(board_id, user_id, required_additional,
conn)` (caller-provided connection path).  Note the clamp
`max(0, required_additional)` in the overflow computation. -/
def archive_to_fit (cfg : ArchiveConfig) (db : DB) (boardId : String)
    (userId : Nat) (required_additional : Int) (now : Nat) : DB × Nat :=
  if !(should_archive cfg) then (db, 0)
  else
    let total := countTotalTasks db boardId
    let overflow : Int :=
      (total : Int) + max 0 required_additional - (cfg.max_tasks_per_board : Int)
    if overflow ≤ 0 then (db, 0)
    else
      match lookupBoardHeader db boardId userId with
      | none => (db, 0)
      | some header =>
        archive_oldest_completed db boardId userId header overflow.toNat now

/-- Embedding of `COALESCE(MAX(position), 0)` over the board's active tasks. -/
def maxActivePosition (db : DB) (boardId : String) : Nat :=
  ((db.tasks.filter (fun t => t.board_id == boardId && !t.is_completed)).map
    (fun t => t.position)).foldr max 0

/-- Embedding of `COALESCE(MAX(position), 0)` over the board's tasks in one section
(`is_completed = %s`). -/
def maxSectionPosition (db : DB) (boardId : String) (isCompleted : Bool) : Nat :=
  ((db.tasks.filter (fun t => t.board_id == boardId && t.is_completed == isCompleted)).map
    (fun t => t.position)).foldr max 0

/-- Embedding of `restore_archived_task` from the tool server: look up the archived row
for the acting user, re-validate the board, enforce the active-task cap
(`ArchiveManager.MAX_TASKS_PER_BOARD`), insert a fresh active task and
delete the archive row.  Python `raise ValueError` becomes `Except.error`. -/
def restore_archived_task (maxTasks : Nat) (db : DB) (userId : Nat)
    (archivedTaskId : Nat) (now : Nat) : Except String (DB × Nat) :=
  match db.archived_tasks.find? (fun a => a.id == archivedTaskId && a.user_id == userId) with
  | none => .error "Archived task not found for the current user."
  | some archived =>
    let boardId := archived.board_id
    match db.boards.find? (fun b => b.id == boardId && b.user_id == userId) with
    | none => .error "The archived task references a board that no longer exists."
    | some _ =>
      if countActiveTasks db boardId ≥ maxTasks then
        .error "Board already has the maximum number of active tasks."
      else
        let next_position := maxActivePosition db boardId + 1
        let newTask : TaskRow :=
          { id := db.next_task_id
            board_id := boardId
            task := archived.task
            due_date := archived.due_date
            notes := archived.notes
            is_completed := false
            completed_on := none
            position := next_position
            created_at := now }
        let db' : DB :=
          { db with
              tasks := db.tasks ++ [newTask]
              next_task_id := db.next_task_id + 1
              archived_tasks := db.archived_tasks.filter (fun a => a.id != archivedTaskId) }
        .ok (db', newTask.id)

/-- Embedding of `move_task_between_boards` from the tool server.  Returns the new
database state and the result status string; Python `raise ValueError`
becomes `Except.error`.  The active-task cap check uses the literal 10 of
the source and runs only when the moved task is not completed. -/
def move_task_between_boards (db : DB) (userId : Nat) (taskId : Nat)
    (targetBoardId : String) : Except String (DB × String) :=
  match db.tasks.find? (fun t =>
      t.id == taskId && db.boards.any (fun b => b.id == t.board_id && b.user_id == userId)) with
  | none => .error "TaskRow not found for the current user."
  | some row =>
    if row.board_id == targetBoardId then .ok (db, "unchanged")
    else
      match db.boards.find? (fun b => b.id == targetBoardId && b.user_id == userId) with
      | none => .error "Target board not found for the current user."
      | some _ =>
        if !row.is_completed && decide (countActiveTasks db targetBoardId ≥ 10) then
          .error "Target board already has 10 active tasks."
        else
          let next_position := maxSectionPosition db targetBoardId row.is_completed + 1
          let db' : DB :=
            { db with
                tasks := db.tasks.map (fun t =>
                  if t.id == taskId then
                    { t with board_id := targetBoardId, position := next_position }
                  else t) }
          .ok (db', "moved")

/-- A caller-controlled transaction: the durable (committed) state plus the
working state the open cursor sees.  `archive_overflow_tasks` with a
caller-provided connection operates on the working state only; commit and
rollback belong to the caller. -/
structure Txn where
  committed : DB
  working : DB
deriving DecidableEq, Repr

/-- The caller's rollback: discard the uncommitted working state. -/
def Txn.rollback (t : Txn) : Txn :=
  { committed := t.committed, working := t.committed }

/-- Storage-fault injection for the mutating statements of the archive loop:
`none` never faults, `some 0` makes the next INSERT/DELETE raise, `some (n+1)`
lets one statement through.  A result of `none` means the statement raised. -/
def consumeFuel : Option Nat → Option (Option Nat)
  | none => some none
  | some 0 => none
  | some (n + 1) => some (some n)

/-- The `for task in rows:` loop of `_archive_oldest_completed` with
storage-fault injection on each INSERT and DELETE statement.  On a raise the
uncommitted working state at that point is returned as the error payload. -/
def archiveLoopTx (userId : Nat) (boardId boardName : String) (now : Nat) :
    Option Nat → DB → List TaskRow → Except DB (DB × Nat)
  | _, db, [] => .ok (db, 0)
  | fuel, db, t :: ts =>
    match consumeFuel fuel with
    | none => .error db
    | some fuel1 =>
      let db1 := insertArchived db (mkArchivedRow db userId boardId boardName t now)
      match consumeFuel fuel1 with
      | none => .error db1
      | some fuel2 =>
        let db2 := deleteTask db1 t.id
        match archiveLoopTx userId boardId boardName now fuel2 db2 ts with
        | .error d => .error d
        | .ok (db3, n) => .ok (db3, n + 1)

/-- Embedding of `archive_overflow_tasks` on a caller-provided connection, with
storage-fault injection: the flag gate and `_archive_overflow_with_cursor`
acting on the transaction's working state.  The function never commits
(`managed_conn.commit()` runs only on the self-opened connection path), and
the `except ... raise` of the source propagates a storage error to the
caller as `Except.error`. -/
def archive_overflow_tasks_tx (cfg : ArchiveConfig) (fuel : Option Nat)
    (txn : Txn) (boardId : String) (userId : Nat) (now : Nat) :
    Except Txn (Txn × Nat) :=
  if !(should_archive cfg) then .ok (txn, 0)
  else
    let db := txn.working
    let total_tasks := countTotalTasks db boardId
    if total_tasks ≤ cfg.max_tasks_per_board then .ok (txn, 0)
    else
      match lookupBoardHeader db boardId userId with
      | none => .ok (txn, 0)
      | some board_name =>
        let rows := selectOldestCompleted db boardId (total_tasks - cfg.max_tasks_per_board)
        if rows.isEmpty then .ok (txn, 0)
        else
          match archiveLoopTx userId boardId board_name now fuel db rows with
          | .error d => .error { committed := txn.committed, working := d }
          | .ok (db', n) => .ok ({ committed := txn.committed, working := db' }, n)

/-- Configuration with archiving enabled and the default ceiling of 10. -/
def cfgOn : ArchiveConfig :=
  { enable_archive_on_complete := true, max_tasks_per_board := 10 }

/-- The default configuration: archiving disabled, ceiling 10. -/
def cfgOff : ArchiveConfig :=
  { enable_archive_on_complete := false, max_tasks_per_board := 10 }

/-- Fixture: an active task row. -/
def mkActive (i : Nat) (b : String) : TaskRow :=
  { id := i, board_id := b, task := "t", due_date := none, notes := "",
    is_completed := false, completed_on := none, position := i, created_at := i }

/-- Fixture: a completed task row with the given completion date. -/
def mkCompleted (i : Nat) (b : String) (con : Option Nat) : TaskRow :=
  { id := i, board_id := b, task := "t", due_date := none, notes := "",
    is_completed := true, completed_on := con, position := i, created_at := i }

/-- Fixture: board `b1` of user 1 holding 12 tasks, 9 active and 3 completed
with completion dates null, 2024-01-01, 2024-02-01 (claims C1/C2). -/
def dbA : DB :=
  { boards := [{ id := "b1", user_id := 1, header := "Board One" }]
    tasks := (List.range 9).map (fun i => mkActive (i + 1) "b1") ++
      [mkCompleted 11 "b1" none,
       mkCompleted 12 "b1" (some 20240101),
       mkCompleted 13 "b1" (some 20240201)]
    archived_tasks := []
    next_task_id := 50
    next_archived_id := 1 }

/-- Fixture: board `b1` of user 1 with no tasks at all (claim C4). -/
def db0 : DB :=
  { boards := [{ id := "b1", user_id := 1, header := "Board One" }]
    tasks := []
    archived_tasks := []
    next_task_id := 1
    next_archived_id := 1 }

/-- Fixture: board `b1` of user 1 holding 50 tasks (claim C6). -/
def db50 : DB :=
  { boards := [{ id := "b1", user_id := 1, header := "Board One" }]
    tasks := (List.range 50).map (fun i => mkActive (i + 1) "b1")
    archived_tasks := []
    next_task_id := 51
    next_archived_id := 1 }

/-- Fixture: board `bX` owned by user 2 with 11 tasks; user 1 is the acting
user (claim C7). -/
def dbC7 : DB :=
  { boards := [{ id := "bX", user_id := 2, header := "Not Yours" }]
    tasks := (List.range 11).map (fun i => mkActive (i + 1) "bX")
    archived_tasks := []
    next_task_id := 12
    next_archived_id := 1 }

/-- Fixture: board `b1` of user 1 holding 15 tasks, 10 active and 5 completed
(claims C5/C9). -/
def dbC9 : DB :=
  { boards := [{ id := "b1", user_id := 1, header := "Board One" }]
    tasks := (List.range 10).map (fun i => mkActive (i + 1) "b1") ++
      (List.range 5).map (fun i => mkCompleted (21 + i) "b1" (some (20240101 + i)))
    archived_tasks := []
    next_task_id := 26
    next_archived_id := 1 }

/-- Fixture: an archived snapshot of a task of user 1 on board `b1`. -/
def aRowR : ArchivedTask :=
  ⟨100, 1, 55, "b1", "Board One", "alpha",
    some 20240110, "note", some 20240105, 500⟩

/-- Fixture: one archived task of user 1 whose board `b1` still exists and
has 2 active tasks (claim C8). -/
def dbR : DB :=
  { boards := [{ id := "b1", user_id := 1, header := "Board One" }]
    tasks := [mkActive 1 "b1", mkActive 2 "b1"]
    archived_tasks := [aRowR]
    next_task_id := 200
    next_archived_id := 101 }

/-- Fixture: user 1 owns boards `b1` and `b2`; a completed task (id 7) sits
on `b1`; `b2` already holds 10 tasks (claim C10). -/
def dbM : DB :=
  { boards := [{ id := "b1", user_id := 1, header := "One" },
               { id := "b2", user_id := 1, header := "Two" }]
    tasks := mkCompleted 7 "b1" (some 20240115) ::
      ((List.range 5).map (fun i => mkActive (31 + i) "b2") ++
       (List.range 5).map (fun i => mkCompleted (41 + i) "b2" (some (20240201 + i))))
    archived_tasks := []
    next_task_id := 60
    next_archived_id := 1 }

/-- The SQL sort key is total. -/
theorem taskLE_total (a b : TaskRow) : taskLE a b ∨ taskLE b a := by
  unfold taskLE archiveOrderLE
  cases ha : a.completed_on with
  | none =>
    cases hb : b.completed_on with
    | none => simp; omega
    | some y => simp
  | some x =>
    cases hb : b.completed_on with
    | none => simp
    | some y => simp; omega

/-- The SQL sort key is transitive. -/
theorem taskLE_trans (a b c : TaskRow) : taskLE a b → taskLE b c → taskLE a c := by
  unfold taskLE archiveOrderLE
  cases ha : a.completed_on with
  | none =>
    cases hb : b.completed_on with
    | none =>
      cases hc : c.completed_on with
      | none => simp; omega
      | some z => simp
    | some y =>
      cases hc : c.completed_on with
      | none => simp
      | some z => simp
  | some x =>
    cases hb : b.completed_on with
    | none =>
      cases hc : c.completed_on with
      | none => simp
      | some z => simp
    | some y =>
      cases hc : c.completed_on with
      | none => simp
      | some z => simp; omega

instance : IsTotal TaskRow taskLE := ⟨taskLE_total⟩

instance : IsTrans TaskRow taskLE := ⟨fun a b c => taskLE_trans a b c⟩

/-- The loop returns the number of selected rows. -/
theorem archiveLoop_snd (u : Nat) (b h : String) (now : Nat) :
    ∀ (rows : List TaskRow) (db : DB), (archiveLoop u b h now db rows).2 = rows.length := by
  intro rows
  induction rows with
  | nil => intro db; rfl
  | cons t ts ih => intro db; simp [archiveLoop, ih]

/-- The loop does not touch the `boards` table. -/
theorem archiveLoop_boards (u : Nat) (b h : String) (now : Nat) :
    ∀ (rows : List TaskRow) (db : DB), (archiveLoop u b h now db rows).1.boards = db.boards := by
  intro rows
  induction rows with
  | nil => intro db; rfl
  | cons t ts ih => intro db; simp [archiveLoop, ih, insertArchived, deleteTask]

/-- Effect of the loop on the `tasks` table: exactly the rows whose id occurs
among the selected rows are deleted. -/
theorem archiveLoop_tasks (u : Nat) (b h : String) (now : Nat) :
    ∀ (rows : List TaskRow) (db : DB),
      (archiveLoop u b h now db rows).1.tasks =
        db.tasks.filter (fun t => rows.all (fun r => t.id != r.id)) := by
  intro rows
  induction rows with
  | nil => intro db; simp [archiveLoop]
  | cons t ts ih =>
    intro db
    show (archiveLoop u b h now _ ts).1.tasks = _
    rw [ih]
    simp only [insertArchived, deleteTask, List.filter_filter]
    refine List.filter_congr (fun x _ => ?_)
    simp [List.all_cons, Bool.and_comm]

/-- Effect of the loop on the `archived_tasks` table: one row is appended per
selected row. -/
theorem archiveLoop_archived_length (u : Nat) (b h : String) (now : Nat) :
    ∀ (rows : List TaskRow) (db : DB),
      (archiveLoop u b h now db rows).1.archived_tasks.length =
        db.archived_tasks.length + rows.length := by
  intro rows
  induction rows with
  | nil => intro db; simp [archiveLoop]
  | cons t ts ih =>
    intro db
    show (archiveLoop u b h now _ ts).1.archived_tasks.length = _
    rw [ih]
    simp [insertArchived, deleteTask]
    omega

/-- Every row of the `archived_tasks` table after the loop either was already
there or is the snapshot of one of the selected task rows. -/
theorem archiveLoop_archived_mem (u : Nat) (b h : String) (now : Nat) :
    ∀ (rows : List TaskRow) (db : DB),
      ∀ a ∈ (archiveLoop u b h now db rows).1.archived_tasks,
        a ∈ db.archived_tasks ∨
          ∃ r, r ∈ rows ∧ a.original_task_id = r.id ∧ a.task = r.task ∧
            a.due_date = r.due_date ∧ a.notes = r.notes ∧
            a.completed_on = r.completed_on := by
  intro rows
  induction rows with
  | nil => intro db a ha; exact Or.inl ha
  | cons t ts ih =>
    intro db a ha
    have ha' := ih _ a ha
    rcases ha' with hmem | ⟨r, hr, hrest⟩
    · simp only [deleteTask, insertArchived, List.mem_append, List.mem_singleton] at hmem
      rcases hmem with hold | hnew
      · exact Or.inl hold
      · exact Or.inr ⟨t, List.mem_cons_self t ts, by simp [hnew, mkArchivedRow]⟩
    · exact Or.inr ⟨r, List.mem_cons_of_mem t hr, hrest⟩

/-- Selected rows are completed tasks of the board. -/
theorem selectOldestCompleted_subset (db : DB) (b : String) (lim : Nat) :
    ∀ t ∈ selectOldestCompleted db b lim, t ∈ completedTasks db b := by
  intro t ht
  have h1 : t ∈ List.insertionSort taskLE (completedTasks db b) :=
    List.mem_of_mem_take ht
  exact (List.perm_insertionSort taskLE (completedTasks db b)).subset h1

/-- Membership facts for a completed task of the board. -/
theorem completedTasks_mem (db : DB) (b : String) :
    ∀ t ∈ completedTasks db b, t ∈ db.tasks ∧ t.board_id = b ∧ t.is_completed = true := by
  intro t ht
  unfold completedTasks at ht
  rw [List.mem_filter] at ht
  refine ⟨ht.1, ?_, ?_⟩
  · have := ht.2
    simp only [Bool.and_eq_true, beq_iff_eq] at this
    exact this.1
  · have := ht.2
    simp only [Bool.and_eq_true, beq_iff_eq] at this
    exact this.2

/-- The selection returns `min lim K` rows, `K` the number of completed
tasks on the board. -/
theorem selectOldestCompleted_length (db : DB) (b : String) (lim : Nat) :
    (selectOldestCompleted db b lim).length = min lim (countCompletedTasks db b) := by
  unfold selectOldestCompleted countCompletedTasks
  rw [List.length_take, List.length_insertionSort]

/-- When task ids are unique in the database, the ids of the selected rows
are pairwise distinct. -/
theorem selectOldestCompleted_nodup (db : DB) (b : String) (lim : Nat)
    (hids : (db.tasks.map TaskRow.id).Nodup) :
    ((selectOldestCompleted db b lim).map TaskRow.id).Nodup := by
  have h1 : ((completedTasks db b).map TaskRow.id).Nodup := by
    have hsub : List.Sublist (completedTasks db b) db.tasks := List.filter_sublist db.tasks
    exact (hsub.map TaskRow.id).nodup hids
  have h2 : ((List.insertionSort taskLE (completedTasks db b)).map TaskRow.id).Nodup := by
    have hperm := (List.perm_insertionSort taskLE (completedTasks db b)).map TaskRow.id
    exact (hperm.nodup_iff).mpr h1
  have h3 : List.Sublist (selectOldestCompleted db b lim)
      (List.insertionSort taskLE (completedTasks db b)) := List.take_sublist _ _
  exact ((h3.map TaskRow.id).nodup h2)

/-- Unique ids: removing the row with the id of a present row shortens the
list by exactly one. -/
theorem length_filter_ne_id (r : TaskRow) :
    ∀ (l : List TaskRow), (l.map TaskRow.id).Nodup → r ∈ l →
      (l.filter (fun t => t.id != r.id)).length + 1 = l.length := by
  intro l
  induction l with
  | nil => intro _ h; cases h
  | cons a l ih =>
    intro hnd hmem
    simp only [List.map_cons, List.nodup_cons] at hnd
    by_cases hid : a.id = r.id
    · have hdrop : (a.id != r.id) = false := by simp [hid]
      have hall : l.filter (fun t => t.id != r.id) = l := by
        refine List.filter_eq_self.mpr (fun t ht => ?_)
        have : t.id ≠ a.id := by
          intro hc
          exact hnd.1 (hc ▸ List.mem_map_of_mem TaskRow.id ht)
        simp [hid ▸ this]
      simp [List.filter_cons, hdrop, hall]
    · have hkeep : (a.id != r.id) = true := by simp [hid]
      have hrl : r ∈ l := by
        rcases List.mem_cons.mp hmem with hra | hrl
        · subst hra
          exact absurd rfl hid
        · exact hrl
      have := ih hnd.2 hrl
      simp [List.filter_cons, hkeep]
      omega

/-- Unique ids: deleting all rows whose id occurs among `rows` (pairwise
distinct ids, all preselected from `l`) shortens `l` by `rows.length`. -/
theorem length_filter_all_ne :
    ∀ (rows l : List TaskRow), (l.map TaskRow.id).Nodup →
      ((rows.map TaskRow.id).Nodup) → (∀ r ∈ rows, r ∈ l) →
      (l.filter (fun t => rows.all (fun r => t.id != r.id))).length + rows.length = l.length := by
  intro rows
  induction rows with
  | nil => intro l _ _ _; simp
  | cons r rows ih =>
    intro l hl hrows hsub
    simp only [List.map_cons, List.nodup_cons] at hrows
    have hstep : l.filter (fun t => (r :: rows).all (fun s => t.id != s.id)) =
        (l.filter (fun t => t.id != r.id)).filter (fun t => rows.all (fun s => t.id != s.id)) := by
      rw [List.filter_filter]
      refine List.filter_congr (fun x _ => ?_)
      simp [List.all_cons, Bool.and_comm]
    set l' := l.filter (fun t => t.id != r.id) with hldef
    have hl' : (l'.map TaskRow.id).Nodup :=
      ((List.filter_sublist l).map TaskRow.id).nodup hl
    have hsub' : ∀ s ∈ rows, s ∈ l' := by
      intro s hs
      rw [hldef, List.mem_filter]
      refine ⟨hsub s (List.mem_cons_of_mem r hs), ?_⟩
      have hne : s.id ≠ r.id := by
        intro hc
        exact hrows.1 (hc ▸ List.mem_map_of_mem TaskRow.id hs)
      simp [hne]
    have hone : l'.length + 1 = l.length :=
      length_filter_ne_id r l hl (hsub r (List.mem_cons_self r rows))
    have := ih l' hl' hrows.2 hsub'
    rw [hstep]
    simp only [List.length_cons]
    omega

/-- The guard `if not rows: return 0` coincides with running the loop on the
empty selection, so the helper always equals the loop on the selection. -/
theorem archive_oldest_eq_loop (db : DB) (b : String) (u : Nat) (h : String)
    (lim now : Nat) :
    archive_oldest_completed db b u h lim now =
      archiveLoop u b h now db (selectOldestCompleted db b lim) := by
  unfold archive_oldest_completed
  by_cases he : (selectOldestCompleted db b lim).isEmpty = true
  · rw [if_pos he]
    rw [List.isEmpty_iff.mp he]
    rfl
  · rw [if_neg he]

/-- The helper archives `min lim K` rows, `K` the number of completed tasks. -/
theorem archive_oldest_snd (db : DB) (b : String) (u : Nat) (h : String)
    (lim now : Nat) :
    (archive_oldest_completed db b u h lim now).2 =
      min lim (countCompletedTasks db b) := by
  rw [archive_oldest_eq_loop, archiveLoop_snd, selectOldestCompleted_length]

/-- The helper leaves the `boards` table alone. -/
theorem archive_oldest_boards (db : DB) (b : String) (u : Nat) (h : String)
    (lim now : Nat) :
    (archive_oldest_completed db b u h lim now).1.boards = db.boards := by
  rw [archive_oldest_eq_loop, archiveLoop_boards]

/-- The helper grows `archived_tasks` by exactly the number archived. -/
theorem archive_oldest_archived_length (db : DB) (b : String) (u : Nat)
    (h : String) (lim now : Nat) :
    (archive_oldest_completed db b u h lim now).1.archived_tasks.length =
      db.archived_tasks.length + (archive_oldest_completed db b u h lim now).2 := by
  rw [archive_oldest_eq_loop, archiveLoop_archived_length, archiveLoop_snd]

/-- Selected rows live in `tasks` and carry the board id. -/
theorem selectOldestCompleted_mem_board (db : DB) (b : String) (lim : Nat) :
    ∀ r ∈ selectOldestCompleted db b lim,
      r ∈ db.tasks.filter (fun t => t.board_id == b) := by
  intro r hr
  have h1 := completedTasks_mem db b r (selectOldestCompleted_subset db b lim r hr)
  rw [List.mem_filter]
  exact ⟨h1.1, by simp [h1.2.1]⟩

/-- With unique ids, the board's total count drops by exactly the number
archived. -/
theorem archive_oldest_total (db : DB) (b : String) (u : Nat) (h : String)
    (lim now : Nat) (hids : (db.tasks.map TaskRow.id).Nodup) :
    countTotalTasks (archive_oldest_completed db b u h lim now).1 b +
      (archive_oldest_completed db b u h lim now).2 = countTotalTasks db b := by
  rw [archive_oldest_eq_loop, archiveLoop_snd]
  unfold countTotalTasks
  rw [archiveLoop_tasks]
  have hswap : (db.tasks.filter
        (fun t => (selectOldestCompleted db b lim).all (fun r => t.id != r.id))).filter
        (fun t => t.board_id == b) =
      (db.tasks.filter (fun t => t.board_id == b)).filter
        (fun t => (selectOldestCompleted db b lim).all (fun r => t.id != r.id)) := by
    rw [List.filter_filter, List.filter_filter]
    exact List.filter_congr (fun x _ => Bool.and_comm _ _)
  rw [hswap]
  refine length_filter_all_ne (selectOldestCompleted db b lim)
    (db.tasks.filter (fun t => t.board_id == b)) ?_ ?_ ?_
  · exact ((List.filter_sublist db.tasks).map TaskRow.id).nodup hids
  · exact selectOldestCompleted_nodup db b lim hids
  · exact selectOldestCompleted_mem_board db b lim

/-- With unique ids, the `tasks` table shrinks by exactly the number
archived. -/
theorem archive_oldest_tasks_length (db : DB) (b : String) (u : Nat)
    (h : String) (lim now : Nat) (hids : (db.tasks.map TaskRow.id).Nodup) :
    (archive_oldest_completed db b u h lim now).1.tasks.length +
      (archive_oldest_completed db b u h lim now).2 = db.tasks.length := by
  rw [archive_oldest_eq_loop, archiveLoop_snd, archiveLoop_tasks]
  refine length_filter_all_ne (selectOldestCompleted db b lim) db.tasks hids
    (selectOldestCompleted_nodup db b lim hids) ?_
  intro r hr
  exact (completedTasks_mem db b r (selectOldestCompleted_subset db b lim r hr)).1

/-- With unique ids, no active (incomplete) task row is deleted. -/
theorem archive_oldest_active_preserved (db : DB) (b : String) (u : Nat)
    (h : String) (lim now : Nat) (hids : (db.tasks.map TaskRow.id).Nodup) :
    ∀ t ∈ db.tasks, t.is_completed = false →
      t ∈ (archive_oldest_completed db b u h lim now).1.tasks := by
  intro t ht hact
  rw [archive_oldest_eq_loop, archiveLoop_tasks]
  rw [List.mem_filter]
  refine ⟨ht, List.all_eq_true.mpr (fun r hr => ?_)⟩
  have hrmem := completedTasks_mem db b r (selectOldestCompleted_subset db b lim r hr)
  rw [bne_iff_ne]
  intro hc
  have heq : t = r := List.inj_on_of_nodup_map hids ht hrmem.1 hc
  rw [heq] at hact
  rw [hrmem.2.2] at hact
  cases hact

/-- Every archive row added by the helper snapshots a completed task of the
board. -/
theorem archive_oldest_archived_src (db : DB) (b : String) (u : Nat)
    (h : String) (lim now : Nat) :
    ∀ a ∈ (archive_oldest_completed db b u h lim now).1.archived_tasks,
      a ∈ db.archived_tasks ∨
        ∃ tr, tr ∈ db.tasks ∧ tr.is_completed = true ∧ tr.board_id = b ∧
          a.original_task_id = tr.id ∧ a.task = tr.task ∧ a.due_date = tr.due_date ∧
          a.notes = tr.notes ∧ a.completed_on = tr.completed_on := by
  intro a ha
  rw [archive_oldest_eq_loop] at ha
  rcases archiveLoop_archived_mem u b h now (selectOldestCompleted db b lim) db a ha with
    hold | ⟨r, hr, h1, h2, h3, h4, h5⟩
  · exact Or.inl hold
  · have hrmem := completedTasks_mem db b r (selectOldestCompleted_subset db b lim r hr)
    exact Or.inr ⟨r, hrmem.1, hrmem.2.2, hrmem.2.1, h1, h2, h3, h4, h5⟩

/-- With the flag on, the board over its ceiling and owned by the acting
user, `archive_overflow_tasks` runs the eviction helper with
`overflow = total - ceiling`. -/
theorem archive_overflow_tasks_eq (cfg : ArchiveConfig) (db : DB) (b : String)
    (u : Nat) (now : Nat) (name : String)
    (hflag : cfg.enable_archive_on_complete = true)
    (hgt : cfg.max_tasks_per_board < countTotalTasks db b)
    (hname : lookupBoardHeader db b u = some name) :
    archive_overflow_tasks cfg db b u now =
      archive_oldest_completed db b u name
        (countTotalTasks db b - cfg.max_tasks_per_board) now := by
  unfold archive_overflow_tasks archive_overflow_with_cursor should_archive
  rw [hflag]
  simp only [Bool.not_true, Bool.false_eq_true, if_false]
  rw [if_neg (by omega), hname]

/-- Claim C1: with archiving enabled, for a board owned by the acting user
holding `N` total tasks over the ceiling `C` and with at least `N - C`
completed tasks, `archive_overflow_tasks` returns `N - C`, moves exactly
`N - C` rows from `tasks` to `archived_tasks`, and leaves the board with
exactly `C` tasks. -/
theorem claim_C1 (cfg : ArchiveConfig) (db : DB) (b : String) (u : Nat)
    (now : Nat) (name : String) (N C : Nat)
    (hflag : cfg.enable_archive_on_complete = true)
    (hC : C = cfg.max_tasks_per_board)
    (hN : N = countTotalTasks db b)
    (hlt : C < N)
    (hown : lookupBoardHeader db b u = some name)
    (hcomp : N - C ≤ countCompletedTasks db b)
    (hids : (db.tasks.map TaskRow.id).Nodup) :
    (archive_overflow_tasks cfg db b u now).2 = N - C ∧
    countTotalTasks (archive_overflow_tasks cfg db b u now).1 b = C ∧
    (archive_overflow_tasks cfg db b u now).1.archived_tasks.length =
      db.archived_tasks.length + (N - C) ∧
    (archive_overflow_tasks cfg db b u now).1.tasks.length + (N - C) =
      db.tasks.length := by
  subst hC hN
  rw [archive_overflow_tasks_eq cfg db b u now name hflag hlt hown]
  have hsnd : (archive_oldest_completed db b u name
      (countTotalTasks db b - cfg.max_tasks_per_board) now).2 =
      countTotalTasks db b - cfg.max_tasks_per_board := by
    rw [archive_oldest_snd]
    omega
  have htot := archive_oldest_total db b u name
    (countTotalTasks db b - cfg.max_tasks_per_board) now hids
  have hlen := archive_oldest_tasks_length db b u name
    (countTotalTasks db b - cfg.max_tasks_per_board) now hids
  have harch := archive_oldest_archived_length db b u name
    (countTotalTasks db b - cfg.max_tasks_per_board) now
  refine ⟨hsnd, ?_, ?_, ?_⟩
  · omega
  · omega
  · omega

/-- Witness for C1: board `b1` of `dbA` holds 12 tasks over the ceiling 10
with 3 completed tasks; exactly 2 are archived and 10 remain. -/
theorem claim_C1_witness :
    (archive_overflow_tasks cfgOn dbA "b1" 1 999).2 = 12 - 10 ∧
    countTotalTasks (archive_overflow_tasks cfgOn dbA "b1" 1 999).1 "b1" = 10 ∧
    (archive_overflow_tasks cfgOn dbA "b1" 1 999).1.archived_tasks.length =
      dbA.archived_tasks.length + (12 - 10) ∧
    (archive_overflow_tasks cfgOn dbA "b1" 1 999).1.tasks.length + (12 - 10) =
      dbA.tasks.length :=
  claim_C1 cfgOn dbA "b1" 1 999 "Board One" 12 10 rfl rfl (by decide)
    (by decide) rfl (by decide) (by decide)

/-- Claim C2: the evicted completed tasks are the first `lim` of the board's
completed tasks in the order "null completion date first, then ascending
completion date, then ascending creation time" (`taskLE`): the selection is
a prefix of a `taskLE`-sorted permutation of the completed tasks, every
selected row precedes every unselected one in that order, and the selection
is a pure function of the database state.  Concretely, for completed tasks
with completion dates [null, 2024-01-01, 2024-02-01] and an eviction of 2,
the null-date task (id 11) and the 2024-01-01 task (id 12) are evicted, in
that order. -/
theorem claim_C2 (db : DB) (b : String) (lim : Nat) :
    (∃ rest,
      selectOldestCompleted db b lim ++ rest =
        List.insertionSort taskLE (completedTasks db b) ∧
      (selectOldestCompleted db b lim ++ rest).Pairwise taskLE ∧
      (selectOldestCompleted db b lim ++ rest).Perm (completedTasks db b) ∧
      (∀ s ∈ selectOldestCompleted db b lim, ∀ t ∈ rest, taskLE s t)) ∧
    (selectOldestCompleted db b lim).length = min lim (countCompletedTasks db b) ∧
    selectOldestCompleted dbA "b1" 2 =
      [mkCompleted 11 "b1" none, mkCompleted 12 "b1" (some 20240101)] ∧
    ((archive_overflow_tasks cfgOn dbA "b1" 1 999).1.archived_tasks.map
      (fun a => a.original_task_id)) = [11, 12] := by
  refine ⟨⟨(List.insertionSort taskLE (completedTasks db b)).drop lim, ?_, ?_, ?_, ?_⟩,
    selectOldestCompleted_length db b lim, by decide, by decide⟩
  · exact List.take_append_drop lim _
  · unfold selectOldestCompleted
    rw [List.take_append_drop lim _]
    exact List.sorted_insertionSort taskLE (completedTasks db b)
  · unfold selectOldestCompleted
    rw [List.take_append_drop lim _]
    exact List.perm_insertionSort taskLE (completedTasks db b)
  · intro s hs t ht
    have hp : (selectOldestCompleted db b lim ++
        (List.insertionSort taskLE (completedTasks db b)).drop lim).Pairwise taskLE := by
      unfold selectOldestCompleted
      rw [List.take_append_drop lim _]
      exact List.sorted_insertionSort taskLE (completedTasks db b)
    exact (List.pairwise_append.mp hp).2.2 s hs t ht

/-- The function `archive_to_fit` either does nothing or runs the shared eviction
helper. -/
theorem archive_to_fit_cases (cfg : ArchiveConfig) (db : DB) (b : String)
    (u : Nat) (ra : Int) (now : Nat) :
    archive_to_fit cfg db b u ra now = (db, 0) ∨
    ∃ name lim, archive_to_fit cfg db b u ra now =
      archive_oldest_completed db b u name lim now := by
  simp only [archive_to_fit]
  split
  · exact Or.inl rfl
  · split
    · exact Or.inl rfl
    · split
      · exact Or.inl rfl
      · exact Or.inr ⟨_, _, rfl⟩

/-- The function `archive_overflow_tasks` either does nothing or runs the shared eviction
helper. -/
theorem archive_overflow_tasks_cases (cfg : ArchiveConfig) (db : DB)
    (b : String) (u : Nat) (now : Nat) :
    archive_overflow_tasks cfg db b u now = (db, 0) ∨
    ∃ name lim, archive_overflow_tasks cfg db b u now =
      archive_oldest_completed db b u name lim now := by
  simp only [archive_overflow_tasks, archive_overflow_with_cursor]
  split
  · exact Or.inl rfl
  · split
    · exact Or.inl rfl
    · split
      · exact Or.inl rfl
      · exact Or.inr ⟨_, _, rfl⟩

/-- Claim C3: when only `K` completed tasks exist but the overflow is
larger, exactly `K` tasks are archived and `K` is returned; no active task
is inserted into `archived_tasks` or deleted from `tasks`, neither by
`archive_overflow_tasks` nor by `archive_to_fit` (any
`required_additional`). -/
theorem claim_C3 (cfg : ArchiveConfig) (db : DB) (b : String) (u : Nat)
    (now : Nat) (name : String) (K : Nat)
    (hflag : cfg.enable_archive_on_complete = true)
    (hown : lookupBoardHeader db b u = some name)
    (hK : K = countCompletedTasks db b)
    (hgt : cfg.max_tasks_per_board < countTotalTasks db b)
    (hshort : K < countTotalTasks db b - cfg.max_tasks_per_board)
    (hids : (db.tasks.map TaskRow.id).Nodup) :
    (archive_overflow_tasks cfg db b u now).2 = K ∧
    (archive_overflow_tasks cfg db b u now).1.archived_tasks.length =
      db.archived_tasks.length + K ∧
    (∀ t ∈ db.tasks, t.is_completed = false →
      t ∈ (archive_overflow_tasks cfg db b u now).1.tasks) ∧
    (∀ a ∈ (archive_overflow_tasks cfg db b u now).1.archived_tasks,
      a ∈ db.archived_tasks ∨ ∃ tr, tr ∈ db.tasks ∧ tr.is_completed = true ∧
        a.original_task_id = tr.id) ∧
    (∀ ra : Int,
      (∀ t ∈ db.tasks, t.is_completed = false →
        t ∈ (archive_to_fit cfg db b u ra now).1.tasks) ∧
      (∀ a ∈ (archive_to_fit cfg db b u ra now).1.archived_tasks,
        a ∈ db.archived_tasks ∨ ∃ tr, tr ∈ db.tasks ∧ tr.is_completed = true ∧
          a.original_task_id = tr.id)) := by
  subst hK
  rw [archive_overflow_tasks_eq cfg db b u now name hflag hgt hown]
  have hsnd : (archive_oldest_completed db b u name
      (countTotalTasks db b - cfg.max_tasks_per_board) now).2 =
      countCompletedTasks db b := by
    rw [archive_oldest_snd]
    omega
  refine ⟨hsnd, ?_, ?_, ?_, ?_⟩
  · rw [archive_oldest_archived_length, hsnd]
  · exact fun t ht hact =>
      archive_oldest_active_preserved db b u name _ now hids t ht hact
  · intro a ha
    rcases archive_oldest_archived_src db b u name _ now a ha with
      h | ⟨tr, h1, h2, h3, h4, h5, h6, h7, h8⟩
    · exact Or.inl h
    · exact Or.inr ⟨tr, h1, h2, h4⟩
  · intro ra
    rcases archive_to_fit_cases cfg db b u ra now with hfit | ⟨nm, lm, hfit⟩
    · rw [hfit]
      exact ⟨fun t ht _ => ht, fun a ha => Or.inl ha⟩
    · rw [hfit]
      refine ⟨fun t ht hact =>
        archive_oldest_active_preserved db b u nm lm now hids t ht hact, ?_⟩
      intro a ha
      rcases archive_oldest_archived_src db b u nm lm now a ha with
        h | ⟨tr, h1, h2, h3, h4, h5, h6, h7, h8⟩
      · exact Or.inl h
      · exact Or.inr ⟨tr, h1, h2, h4⟩

/-- Fixture: board `b1` of user 1 holding 15 tasks of which only 2 are
completed (claim C3: overflow 5 exceeds the 2 available). -/
def dbC3 : DB :=
  { boards := [{ id := "b1", user_id := 1, header := "Board One" }]
    tasks := (List.range 13).map (fun i => mkActive (i + 1) "b1") ++
      [mkCompleted 21 "b1" (some 20240101), mkCompleted 22 "b1" (some 20240102)]
    archived_tasks := []
    next_task_id := 23
    next_archived_id := 1 }

/-- Witness for C3: `dbC3` has overflow 5 but only 2 completed tasks;
exactly 2 are archived. -/
theorem claim_C3_witness :
    (archive_overflow_tasks cfgOn dbC3 "b1" 1 999).2 = 2 ∧
    (archive_overflow_tasks cfgOn dbC3 "b1" 1 999).1.archived_tasks.length =
      dbC3.archived_tasks.length + 2 ∧
    (∀ t ∈ dbC3.tasks, t.is_completed = false →
      t ∈ (archive_overflow_tasks cfgOn dbC3 "b1" 1 999).1.tasks) ∧
    (∀ a ∈ (archive_overflow_tasks cfgOn dbC3 "b1" 1 999).1.archived_tasks,
      a ∈ dbC3.archived_tasks ∨ ∃ tr, tr ∈ dbC3.tasks ∧ tr.is_completed = true ∧
        a.original_task_id = tr.id) ∧
    (∀ ra : Int,
      (∀ t ∈ dbC3.tasks, t.is_completed = false →
        t ∈ (archive_to_fit cfgOn dbC3 "b1" 1 ra 999).1.tasks) ∧
      (∀ a ∈ (archive_to_fit cfgOn dbC3 "b1" 1 ra 999).1.archived_tasks,
        a ∈ dbC3.archived_tasks ∨ ∃ tr, tr ∈ dbC3.tasks ∧ tr.is_completed = true ∧
          a.original_task_id = tr.id)) :=
  claim_C3 cfgOn dbC3 "b1" 1 999 "Board One" 2 rfl rfl (by decide) (by decide)
    (by decide) (by decide)

/-- Claim C4: whenever the board's total count is within the ceiling,
`archive_overflow_tasks` returns 0 and leaves the database — in particular
both the `tasks` and `archived_tasks` tables — unchanged. -/
theorem claim_C4 (cfg : ArchiveConfig) (db : DB) (b : String) (u : Nat)
    (now : Nat)
    (hle : countTotalTasks db b ≤ cfg.max_tasks_per_board) :
    archive_overflow_tasks cfg db b u now = (db, 0) ∧
    (archive_overflow_tasks cfg db b u now).1.tasks = db.tasks ∧
    (archive_overflow_tasks cfg db b u now).1.archived_tasks =
      db.archived_tasks ∧
    (archive_overflow_tasks cfg db b u now).2 = 0 := by
  have h : archive_overflow_tasks cfg db b u now = (db, 0) := by
    unfold archive_overflow_tasks
    split
    · rfl
    · unfold archive_overflow_with_cursor
      rw [if_pos hle]
  exact ⟨h, by rw [h], by rw [h], by rw [h]⟩

/-- Witness for C4: the empty board `b1` of `db0` is within the ceiling and
archiving is a no-op. -/
theorem claim_C4_witness :
    archive_overflow_tasks cfgOn db0 "b1" 1 0 = (db0, 0) ∧
    (archive_overflow_tasks cfgOn db0 "b1" 1 0).1.tasks = db0.tasks ∧
    (archive_overflow_tasks cfgOn db0 "b1" 1 0).1.archived_tasks =
      db0.archived_tasks ∧
    (archive_overflow_tasks cfgOn db0 "b1" 1 0).2 = 0 :=
  claim_C4 cfgOn db0 "b1" 1 0 (by decide)

/-- Claim C6: with the archiving feature flag off, both
`archive_overflow_tasks` and `archive_to_fit` return 0 and change nothing,
for every board, user and `required_additional`. -/
theorem claim_C6 (cfg : ArchiveConfig) (db : DB) (b : String) (u : Nat)
    (ra : Int) (now : Nat)
    (hflag : cfg.enable_archive_on_complete = false) :
    archive_overflow_tasks cfg db b u now = (db, 0) ∧
    archive_to_fit cfg db b u ra now = (db, 0) := by
  constructor
  · unfold archive_overflow_tasks should_archive
    rw [hflag]
    simp
  · unfold archive_to_fit should_archive
    rw [hflag]
    simp

/-- Witness for C6: a board with 50 total tasks under ceiling 10 is left
alone when the flag is off. -/
theorem claim_C6_witness :
    archive_overflow_tasks cfgOff db50 "b1" 1 0 = (db50, 0) ∧
    archive_to_fit cfgOff db50 "b1" 1 3 0 = (db50, 0) :=
  claim_C6 cfgOff db50 "b1" 1 3 0 rfl

/-- The transactional engine never commits: on any raised storage error the
committed state of the transaction is untouched. -/
theorem archive_tx_error_committed (cfg : ArchiveConfig) (fuel : Option Nat)
    (txn : Txn) (b : String) (u : Nat) (now : Nat) (t' : Txn)
    (herr : archive_overflow_tasks_tx cfg fuel txn b u now = .error t') :
    t'.committed = txn.committed := by
  simp only [archive_overflow_tasks_tx] at herr
  split at herr
  · exact absurd herr (by simp)
  · split at herr
    · exact absurd herr (by simp)
    · split at herr
      · exact absurd herr (by simp)
      · split at herr
        · exact absurd herr (by simp)
        · split at herr
          · injection herr with h
            rw [← h]
          · exact absurd herr (by simp)

/-- Whether a transactional archive run raised. -/
def archiveRaised (r : Except Txn (Txn × Nat)) : Bool :=
  match r with
  | .error _ => true
  | .ok _ => false

/-- Claim C5: if the storage layer raises partway through archiving, the
error propagates out of `archive_overflow_tasks` uncommitted, and the
caller's rollback leaves the `tasks` and `archived_tasks` tables exactly as
they were before the call. -/
theorem claim_C5 (cfg : ArchiveConfig) (fuel : Option Nat) (db : DB)
    (b : String) (u : Nat) (now : Nat) (t' : Txn)
    (herr : archive_overflow_tasks_tx cfg fuel (Txn.mk db db) b u now = .error t') :
    t'.committed = db ∧
    t'.rollback = Txn.mk db db ∧
    t'.rollback.working.tasks = db.tasks ∧
    t'.rollback.working.archived_tasks = db.archived_tasks := by
  have hc : t'.committed = db := archive_tx_error_committed cfg fuel _ b u now t' herr
  refine ⟨hc, ?_, ?_, ?_⟩
  · unfold Txn.rollback
    rw [hc]
  · unfold Txn.rollback
    rw [hc]
  · unfold Txn.rollback
    rw [hc]

/-- Witness for C5: on `dbC9` (15 tasks, 5 eviction candidates) a storage
fault injected at the DELETE of the 3rd candidate raises, and rollback
restores the original transaction state. -/
theorem claim_C5_witness :
    (match archive_overflow_tasks_tx cfgOn (some 5) (Txn.mk dbC9 dbC9) "b1" 1 9 with
      | .error t' => t'.rollback = Txn.mk dbC9 dbC9
      | .ok _ => False) := by
  have h1 : archiveRaised
      (archive_overflow_tasks_tx cfgOn (some 5) (Txn.mk dbC9 dbC9) "b1" 1 9) = true := by
    decide
  cases harch : archive_overflow_tasks_tx cfgOn (some 5) (Txn.mk dbC9 dbC9) "b1" 1 9 with
  | error t' =>
    exact (claim_C5 cfgOn (some 5) dbC9 "b1" 1 9 t' harch).2.1
  | ok p =>
    rw [harch] at h1
    simp [archiveRaised] at h1

/-- Counterexample to C7 as stated: archiving is enabled, board `bX` holds
11 > 10 tasks, but it is owned by user 2 while user 1 acts.  The call does
not fail: it returns 0 and leaves the database unchanged (the source logs
the missing board and returns 0). -/
theorem claim_C7_counterexample :
    archive_overflow_tasks cfgOn dbC7 "bX" 1 0 = (dbC7, 0) ∧
    archive_to_fit cfgOn dbC7 "bX" 1 1 0 = (dbC7, 0) ∧
    cfgOn.enable_archive_on_complete = true ∧
    countTotalTasks dbC7 "bX" = 11 ∧
    lookupBoardHeader dbC7 "bX" 1 = none := by
  refine ⟨by decide, by decide, rfl, by decide, by decide⟩

/-- Amended C7: when archiving is enabled and the board exceeds the ceiling
but is not owned by the acting user, `archive_overflow_tasks` (and
`archive_to_fit` whenever its overflow is positive) returns 0 and leaves
the database unchanged instead of propagating a failure. -/
theorem claim_C7_amended (cfg : ArchiveConfig) (db : DB) (b : String)
    (u : Nat) (ra : Int) (now : Nat)
    (hflag : cfg.enable_archive_on_complete = true)
    (hgt : cfg.max_tasks_per_board < countTotalTasks db b)
    (hlookup : lookupBoardHeader db b u = none) :
    archive_overflow_tasks cfg db b u now = (db, 0) ∧
    ((0 : Int) < (countTotalTasks db b : Int) + max 0 ra -
        (cfg.max_tasks_per_board : Int) →
      archive_to_fit cfg db b u ra now = (db, 0)) := by
  constructor
  · unfold archive_overflow_tasks archive_overflow_with_cursor should_archive
    rw [hflag]
    simp only [Bool.not_true, Bool.false_eq_true, if_false]
    rw [if_neg (by omega), hlookup]
  · intro hpos
    unfold archive_to_fit should_archive
    rw [hflag]
    simp only [Bool.not_true, Bool.false_eq_true, if_false]
    rw [if_neg (not_le.mpr hpos), hlookup]

/-- Witness for the amended C7 at the concrete counterexample state. -/
theorem claim_C7_amended_witness :
    archive_overflow_tasks cfgOn dbC7 "bX" 1 5 = (dbC7, 0) ∧
    archive_to_fit cfgOn dbC7 "bX" 1 3 5 = (dbC7, 0) :=
  ⟨(claim_C7_amended cfgOn dbC7 "bX" 1 3 5 rfl (by decide) (by decide)).1,
   (claim_C7_amended cfgOn dbC7 "bX" 1 3 5 rfl (by decide) (by decide)).2 (by decide)⟩

/-- The fresh active task row inserted by `restore_archived_task`. -/
def restoredTask (db : DB) (a : ArchivedTask) (now : Nat) : TaskRow :=
  { id := db.next_task_id
    board_id := a.board_id
    task := a.task
    due_date := a.due_date
    notes := a.notes
    is_completed := false
    completed_on := none
    position := maxActivePosition db a.board_id + 1
    created_at := now }

/-- The database state produced by a successful `restore_archived_task`. -/
def restoredDB (db : DB) (a : ArchivedTask) (aid now : Nat) : DB :=
  { db with
      tasks := db.tasks ++ [restoredTask db a now]
      next_task_id := db.next_task_id + 1
      archived_tasks := db.archived_tasks.filter (fun x => x.id != aid) }

/-- Claim C8: restoring an archived task of the acting user whose board
still exists and is still owned by that user creates — in the same call — a
fresh active task with the same `task`, `due_date` and `notes`, a new id,
`completed_on` null, and deletes the archive row, provided the board has
fewer than 10 active tasks; with 10 or more active tasks it fails with the
capacity error. -/
theorem claim_C8 (maxT : Nat) (db : DB) (u aid now : Nat) (a : ArchivedTask)
    (hmax : maxT = 10)
    (hfind : db.archived_tasks.find? (fun x => x.id == aid && x.user_id == u) = some a)
    (hboard : (db.boards.find? (fun bd => bd.id == a.board_id && bd.user_id == u)).isSome = true)
    (hfresh : ∀ t ∈ db.tasks, t.id ≠ db.next_task_id) :
    (countActiveTasks db a.board_id < maxT →
      ∃ db', restore_archived_task maxT db u aid now = .ok (db', db.next_task_id) ∧
        (∃ nt : TaskRow,
          db'.tasks = db.tasks ++ [nt] ∧
          nt.id = db.next_task_id ∧
          nt.board_id = a.board_id ∧
          nt.task = a.task ∧
          nt.due_date = a.due_date ∧
          nt.notes = a.notes ∧
          nt.is_completed = false ∧
          nt.completed_on = none ∧
          (∀ t ∈ db.tasks, t.id ≠ nt.id)) ∧
        db'.archived_tasks = db.archived_tasks.filter (fun x => x.id != aid) ∧
        a ∉ db'.archived_tasks ∧
        db'.boards = db.boards) ∧
    (maxT ≤ countActiveTasks db a.board_id →
      restore_archived_task maxT db u aid now =
        .error "Board already has the maximum number of active tasks.") := by
  cases hb : db.boards.find? (fun bd => bd.id == a.board_id && bd.user_id == u) with
  | none =>
    rw [hb] at hboard
    simp at hboard
  | some bd =>
    constructor
    · intro hlt
      have hrun : restore_archived_task maxT db u aid now =
          .ok (restoredDB db a aid now, db.next_task_id) := by
        simp only [restore_archived_task, hfind, hb]
        rw [if_neg (by omega)]
        rfl
      refine ⟨restoredDB db a aid now, hrun, ⟨restoredTask db a now, rfl, rfl, rfl,
        rfl, rfl, rfl, rfl, rfl, fun t ht => hfresh t ht⟩, rfl, ?_, rfl⟩
      intro hmem
      have hpred := List.of_mem_filter hmem
      have hida : a.id = aid := by
        have hp := List.find?_some hfind
        simp only [Bool.and_eq_true, beq_iff_eq] at hp
        exact hp.1
      rw [hida] at hpred
      simp at hpred
    · intro hge
      simp only [restore_archived_task, hfind, hb]
      rw [if_pos (by omega)]

/-- Witness for C8: restoring archive row 100 of `dbR` (board `b1`, 2 of 10
active slots used) succeeds with a fresh task id 200. -/
theorem claim_C8_witness :
    ∃ db', restore_archived_task 10 dbR 1 100 77 = .ok (db', dbR.next_task_id) ∧
      (∃ nt : TaskRow,
        db'.tasks = dbR.tasks ++ [nt] ∧
        nt.id = dbR.next_task_id ∧
        nt.board_id = aRowR.board_id ∧
        nt.task = aRowR.task ∧
        nt.due_date = aRowR.due_date ∧
        nt.notes = aRowR.notes ∧
        nt.is_completed = false ∧
        nt.completed_on = none ∧
        (∀ t ∈ dbR.tasks, t.id ≠ nt.id)) ∧
      db'.archived_tasks = dbR.archived_tasks.filter (fun x => x.id != 100) ∧
      aRowR ∉ db'.archived_tasks ∧
      db'.boards = dbR.boards :=
  (claim_C8 10 dbR 1 100 77 aRowR rfl (by decide) (by decide) (by decide)).1
    (by decide)

/-- Counterexample to C9 as stated: on `dbC9` (15 total tasks, ceiling 10)
with `required_additional = -5`, the claim's eviction count
`(current_total + required_additional) - ceiling = 0` is not positive, so
the claim requires a no-op returning 0; the code clamps the negative value
to 0 and archives 5 tasks. -/
theorem claim_C9_counterexample :
    (archive_to_fit cfgOn dbC9 "b1" 1 (-5) 7).2 = 5 ∧
    ((countTotalTasks dbC9 "b1" : Int) + (-5) -
      (cfgOn.max_tasks_per_board : Int) ≤ 0) ∧
    archive_to_fit cfgOn dbC9 "b1" 1 (-5) 7 ≠ (dbC9, 0) := by
  refine ⟨by decide, by decide, by decide⟩

/-- Amended C9: `archive_to_fit` computes the eviction count as
`(current_total + max 0 required_additional) - ceiling`; it archives
nothing and returns 0 when that quantity is not positive; otherwise it
behaves exactly like `archive_overflow_tasks` with that overflow (board
ownership lookup, then eviction of the oldest completed tasks); in
particular for `required_additional ≤ 0` it coincides with
`archive_overflow_tasks`. -/
theorem claim_C9_amended (cfg : ArchiveConfig) (db : DB) (b : String)
    (u : Nat) (ra : Int) (now : Nat)
    (hflag : cfg.enable_archive_on_complete = true) :
    (((countTotalTasks db b : Int) + max 0 ra -
        (cfg.max_tasks_per_board : Int)) ≤ 0 →
      archive_to_fit cfg db b u ra now = (db, 0)) ∧
    (0 < ((countTotalTasks db b : Int) + max 0 ra -
        (cfg.max_tasks_per_board : Int)) →
      archive_to_fit cfg db b u ra now =
        (match lookupBoardHeader db b u with
          | none => (db, 0)
          | some name => archive_oldest_completed db b u name
              ((countTotalTasks db b : Int) + max 0 ra -
                (cfg.max_tasks_per_board : Int)).toNat now)) ∧
    (ra ≤ 0 →
      archive_to_fit cfg db b u ra now = archive_overflow_tasks cfg db b u now) := by
  refine ⟨?_, ?_, ?_⟩
  · intro h
    unfold archive_to_fit should_archive
    rw [hflag]
    simp only [Bool.not_true, Bool.false_eq_true, if_false]
    rw [if_pos h]
  · intro h
    unfold archive_to_fit should_archive
    rw [hflag]
    simp only [Bool.not_true, Bool.false_eq_true, if_false]
    rw [if_neg (not_le.mpr h)]
  · intro hra
    have hmax0 : max (0 : Int) ra = 0 := max_eq_left hra
    unfold archive_to_fit archive_overflow_tasks archive_overflow_with_cursor should_archive
    rw [hflag]
    simp only [Bool.not_true, Bool.false_eq_true, if_false, hmax0]
    by_cases hle : countTotalTasks db b ≤ cfg.max_tasks_per_board
    · rw [if_pos (by omega), if_pos hle]
    · rw [if_neg (by omega), if_neg hle]
      cases hlk : lookupBoardHeader db b u with
      | none => simp only [hlk]
      | some name =>
        simp only [hlk]
        have harith : ((countTotalTasks db b : Int) + 0 -
            (cfg.max_tasks_per_board : Int)).toNat =
            countTotalTasks db b - cfg.max_tasks_per_board := by omega
        rw [harith]

/-- Witness for the amended C9: with `required_additional = -5` on `dbC9`
the call coincides with `archive_overflow_tasks`, and on the empty board
`db0` a non-positive overflow is a no-op. -/
theorem claim_C9_amended_witness :
    archive_to_fit cfgOn dbC9 "b1" 1 (-5) 7 =
      archive_overflow_tasks cfgOn dbC9 "b1" 1 7 ∧
    archive_to_fit cfgOn db0 "b1" 1 (-7) 7 = (db0, 0) :=
  ⟨(claim_C9_amended cfgOn dbC9 "b1" 1 (-5) 7 rfl).2.2 (by decide),
   (claim_C9_amended cfgOn db0 "b1" 1 (-7) 7 rfl).1 (by decide)⟩

/-- The database state produced by a successful `move_task_between_boards`:
the moved row is rebased to the target board with a fresh section
position. -/
def movedDB (db : DB) (tid : Nat) (target : String) (isc : Bool) : DB :=
  { db with
      tasks := db.tasks.map (fun t =>
        if t.id == tid then
          { t with board_id := target, position := maxSectionPosition db target isc + 1 }
        else t) }

/-- Claim C10: moving a completed task of the acting user to another of
their boards succeeds with no check of the target board's active or total
counts — the 10-active-task cap fires only for an active task — and no
archiving runs: `archived_tasks` is untouched and no task row is deleted,
so the move can push the target board's total above the ceiling. -/
theorem claim_C10 (db : DB) (u tid : Nat) (target : String) (row : TaskRow)
    (hfind : db.tasks.find? (fun t => t.id == tid &&
      db.boards.any (fun bd => bd.id == t.board_id && bd.user_id == u)) = some row)
    (hdiff : row.board_id ≠ target)
    (htarget : (db.boards.find? (fun bd => bd.id == target && bd.user_id == u)).isSome = true) :
    (row.is_completed = true →
      move_task_between_boards db u tid target =
        .ok (movedDB db tid target row.is_completed, "moved") ∧
      (movedDB db tid target row.is_completed).archived_tasks = db.archived_tasks ∧
      (movedDB db tid target row.is_completed).boards = db.boards ∧
      (movedDB db tid target row.is_completed).tasks.length = db.tasks.length) ∧
    (row.is_completed = false → 10 ≤ countActiveTasks db target →
      move_task_between_boards db u tid target =
        .error "Target board already has 10 active tasks.") := by
  cases hb : db.boards.find? (fun bd => bd.id == target && bd.user_id == u) with
  | none =>
    rw [hb] at htarget
    simp at htarget
  | some bd =>
    constructor
    · intro hcomp
      refine ⟨?_, rfl, rfl, by simp [movedDB]⟩
      simp only [move_task_between_boards, hfind, hb]
      rw [if_neg (by simp [hdiff])]
      rw [if_neg (by simp [hcomp])]
      rfl
    · intro hact hge
      simp only [move_task_between_boards, hfind, hb]
      rw [if_neg (by simp [hdiff])]
      rw [if_pos (by simp [hact, hge])]

/-- Witness for C10: task 7 on `b1` of `dbM` is completed; moving it to
board `b2`, which already holds 10 tasks (the ceiling), succeeds without
archiving, pushing `b2` to 11 total tasks. -/
theorem claim_C10_witness :
    (move_task_between_boards dbM 1 7 "b2" =
        .ok (movedDB dbM 7 "b2" (mkCompleted 7 "b1" (some 20240115)).is_completed, "moved") ∧
      (movedDB dbM 7 "b2" (mkCompleted 7 "b1" (some 20240115)).is_completed).archived_tasks =
        dbM.archived_tasks ∧
      (movedDB dbM 7 "b2" (mkCompleted 7 "b1" (some 20240115)).is_completed).boards =
        dbM.boards ∧
      (movedDB dbM 7 "b2" (mkCompleted 7 "b1" (some 20240115)).is_completed).tasks.length =
        dbM.tasks.length) ∧
    countTotalTasks dbM "b2" = 10 ∧
    countTotalTasks (movedDB dbM 7 "b2" true) "b2" = 11 :=
  ⟨(claim_C10 dbM 1 7 "b2" (mkCompleted 7 "b1" (some 20240115))
      (by decide) (by decide) (by decide)).1 (by decide),
   by decide, by decide⟩
